import Mathlib

/-!
Verification of the stochastic-process generator core (`stocproc/stocproc.py`).

The development shallowly embeds the data model and operations of the
abstract generator core (`_absStocProc`) and its three concrete mapping
variants (`StocProc_KLE`, `StocProc_FFT`, `StocProc_TanhSinh`):

* numpy 1-D arrays become `List ℂ` / `List ℝ`; elementwise multiplication
  with numpy's length-1 broadcasting rule becomes `npMul`;
* `np.fft.fft` becomes the standard DFT `npfft`;
* python exceptions become `Except Err` / `Option`, with mutations that
  happened before a raise preserved in the returned state (python
  semantics: an exception does not roll back attribute mutations);
* the process-wide `np.random` generator becomes an explicit `RngSt`
  value threaded through the operations that touch it;
* the external collaborators (spectral density `J`, the quadrature
  weight/abscissa functions `wk`/`yk`, the normal sampler, the spline
  engine) stay abstract function parameters, exactly as the code treats
  them as black boxes.

Error constructors record the failure events of the code; where the spec's
abstract taxonomy (`ConfigurationError`, `NotReadyError`, ...) names a
concrete raise site of the code, the comment at the constructor records
the correspondence.
-/

/-- Failure events of the generator core.  Each constructor corresponds to a
concrete raise site of the python code. -/
inductive Err where
  /-- `RuntimeError("StocProc has NO random data ...")` in `__call__`;
  the spec's taxonomy calls this event `NotReadyError`. -/
  | notReady
  /-- python `AttributeError`: reading `self._z` after `del self._z`. -/
  | attributeError
  /-- python `TypeError`: subscripting/len on `None` (no time spec given,
  or `np.linspace` called with `num=None`). -/
  | typeError
  /-- python `IndexError`: `t[-1]` on an empty time axis. -/
  | indexError
  /-- numpy `ValueError`: operands could not be broadcast together. -/
  | valueError
  /-- `assert num_grid_points <= N` in `StocProc_FFT.__init__`; the spec's
  taxonomy classifies this construction failure as `ConfigurationError`. -/
  | configurationError
  deriving DecidableEq

/-- State of the process-wide random source `np.random`.  `np.random.seed(s)`
puts it deterministically into the state `⟨some s, 0⟩`; every draw of `n`
variates advances `draws` by `n`. -/
structure RngSt where
  lastSeed : Option ℤ
  draws : ℕ
  deriving DecidableEq

/-- Model of `np.random.seed(s)`. -/
def RngSt.reseed (_ : RngSt) (s : ℤ) : RngSt := ⟨some s, 0⟩

/-- Model of drawing `n` variates from the global source. -/
def RngSt.draw (r : RngSt) (n : ℕ) : RngSt := ⟨r.lastSeed, r.draws + n⟩

/-- The interpolator resource, identified by exactly the data the code hands
to the external engine: `fcSpline.FCS(x_low=0, x_high=self.t_max, y=self._z)`. -/
structure Interp where
  x_low : ℝ
  x_high : ℝ
  y : List ℂ

/-- The `_z` attribute of the generator: python distinguishes the attribute
holding `None` (fresh generator), the attribute holding an array, and the
attribute being deleted by `del self._z` (reads then raise `AttributeError`). -/
inductive ZAttr where
  /-- attribute removed by `del self._z`. -/
  | deleted
  /-- attribute present; `none` is python's `None` (fresh generator). -/
  | val (z : Option (List ℂ))

/-- State owned by the abstract core `_absStocProc`. -/
structure CoreState where
  t : List ℝ
  t_max : ℝ
  num_grid_points : ℕ
  z : ZAttr
  interpolator : Option Interp
  seed : Option ℤ
  proc_cnt : ℕ
  scale : ℝ
  sqrt_scale : ℝ

/-- numpy elementwise multiplication of two 1-D arrays, including the length-1
broadcasting rule: equal lengths multiply pairwise, a length-1 operand is
broadcast, anything else raises `ValueError` (modelled as `none`). -/
def npMul (xs ys : List ℂ) : Option (List ℂ) :=
  if xs.length = ys.length then some (List.zipWith (· * ·) xs ys)
  else if ys.length = 1 then some (xs.map (· * ys.getD 0 0))
  else if xs.length = 1 then some (ys.map (xs.getD 0 0 * ·))
  else none

/-- `np.linspace(a, b, n)`: `n` equidistant points from `a` to `b` inclusive
(`[a]` for `n = 1`, `[]` for `n = 0`; for `n = 1` the Lean convention
`x / 0 = 0` makes the formula itself return `a`). -/
noncomputable def linspace (a b : ℝ) (n : ℕ) : List ℝ :=
  (List.range n).map fun i : ℕ => a + (b - a) * (i : ℝ) / ((n : ℝ) - 1)

/-- `np.ndarray.view(np.complex)` on an even-length float array: consecutive
pairs of reals become one complex number. -/
def complexView : List ℝ → List ℂ
  | a :: b :: rest => Complex.mk a b :: complexView rest
  | _ => []

/-- `np.fft.fft`: the plain DFT, `X_l = Σ_k x_k · exp(-2πi·k·l/n)`. -/
noncomputable def npfft (x : List ℂ) : List ℂ :=
  (List.range x.length).map fun l : ℕ =>
    ∑ k ∈ Finset.range x.length,
      x.getD k 0 *
        Complex.exp (-2 * Real.pi * Complex.I * (k : ℂ) * (l : ℂ) / (x.length : ℂ))

/-! ### Abstract core operations (`_absStocProc`) -/

/-- `_absStocProc.__init__`: build the time axis from `(t_max, num_grid_points)`
or from the explicit `t_axis`, read `t[-1]` and `len(t)`, initialise the
lifecycle fields, and — when a seed is given — reseed the global source. -/
noncomputable def absInit (t_max : Option ℝ) (num_grid_points : Option ℕ)
    (seed : Option ℤ) (t_axis : Option (List ℝ)) (scale : ℝ) (rng : RngSt) :
    Except Err (CoreState × RngSt) := do
  let t ← (match t_max, num_grid_points, t_axis with
    | some tm, some n, _ => Except.ok (linspace 0 tm n)
    | some _, none, _ => Except.error Err.typeError
    | none, _, some ta => Except.ok ta
    | none, _, none => Except.error Err.typeError)
  let tmax ← (match t.getLast? with
    | some v => Except.ok v
    | none => Except.error Err.indexError)
  let rng := match seed with
    | some sd => rng.reseed sd
    | none => rng
  Except.ok ({ t := t, t_max := tmax, num_grid_points := t.length,
               z := ZAttr.val none, interpolator := none, seed := seed,
               proc_cnt := 0, scale := scale, sqrt_scale := Real.sqrt scale }, rng)

/-- `_absStocProc.__call__`: raise when `_z` is `None`, return the discrete
sample when `t` is omitted, evaluate the interpolator otherwise.  The
external spline engine is the abstract parameter `interpEval`. -/
def absCall (interpEval : Interp → ℝ → ℂ) (s : CoreState) (t : Option ℝ) :
    Except Err (List ℂ ⊕ ℂ) :=
  match s.z with
  | ZAttr.deleted => Except.error Err.attributeError
  | ZAttr.val none => Except.error Err.notReady
  | ZAttr.val (some zv) =>
    match t with
    | none => Except.ok (Sum.inl zv)
    | some tv =>
      match s.interpolator with
      | none => Except.error Err.typeError
      | some itp => Except.ok (Sum.inr (interpEval itp tv))

/-- `_absStocProc.get_z`: returns `self._z` unconditionally (including the
python `None` of a fresh generator); only a deleted attribute raises. -/
def get_z (s : CoreState) : Except Err (Option (List ℂ)) :=
  match s.z with
  | ZAttr.deleted => Except.error Err.attributeError
  | ZAttr.val v => Except.ok v

/-- `_absStocProc.set_scale`. -/
noncomputable def set_scale (s : CoreState) (scale : ℝ) : CoreState :=
  { s with scale := scale, sqrt_scale := Real.sqrt scale }

/-- `_absStocProc.new_process`, with python mutation-before-raise semantics:
the returned `CoreState × RngSt` is the post state even when the mapping
raises (second component `some e`).  The abstract `calc_z` is the parameter
`mapping` (returning `none` when it raises), the external normal sampler is
`normals`. -/
noncomputable def new_process (mapping : List ℂ → Option (List ℂ)) (num_y : ℕ)
    (normals : RngSt → ℕ → List ℝ)
    (s : CoreState) (rng : RngSt) (y : Option (List ℂ)) (seed : Option ℤ) :
    (CoreState × RngSt) × Option Err :=
  let s := { s with interpolator := none }
  let s := { s with proc_cnt := s.proc_cnt + 1 }
  let rng := match seed with
    | some sd => rng.reseed sd
    | none => rng
  let yr : List ℂ × RngSt := match y with
    | some yv => (yv, rng)
    | none => (complexView (normals rng (2 * num_y)), rng.draw (2 * num_y))
  let yv := yr.1
  let rng := yr.2
  let s := { s with z := ZAttr.deleted }
  match (mapping yv).map (fun zl => zl.map (fun c => ((s.sqrt_scale : ℝ) : ℂ) * c)) with
  | none => ((s, rng), some Err.valueError)
  | some zv =>
    let s := { s with z := ZAttr.val (some zv) }
    let s := { s with interpolator := some ⟨0, s.t_max, zv⟩ }
    ((s, rng), none)

/-! ### Eigen-expansion variant (`StocProc_KLE`) -/

/-- `StocProc_KLE.calc_z`: `np.tensordot(y, sqrt_lambda_ui_fine, axes=([0],[0]))`
followed by `.flatten()`.  The stored matrix has shape `(num_ev, ng)`; the
contraction requires `len(y) = num_ev` (numpy raises otherwise) and yields
`z_k = Σ_i y_i · mat[i][k]`. -/
noncomputable def StocProcKLE_calc_z (mat : List (List ℂ)) (ng : ℕ) (y : List ℂ) :
    Option (List ℂ) :=
  if y.length = mat.length then
    some ((List.range ng).map fun k =>
      ∑ i ∈ Finset.range mat.length, y.getD i 0 * (mat.getD i []).getD k 0)
  else none

/-- `StocProc_KLE.get_num_y`: `self.num_ev`, set in `__setstate__` from
`sqrt_lambda_ui_fine.shape[0]`, i.e. the number of stored rows. -/
def StocProcKLE_get_num_y (mat : List (List ℂ)) : ℕ := mat.length

/-! ### Direct-DFT variant (`StocProc_FFT`) -/

/-- The grid-snapping step of `StocProc_FFT.__init__`:
`num_grid_points = int(np.ceil(t_max/dt)) + 1`, `assert num_grid_points <= N`,
then `t_max = (num_grid_points - 1) * dt`.  The assertion failure is the
event the spec classifies as `ConfigurationError`. -/
noncomputable def fft_snap (t_max dt : ℝ) (N : ℕ) : Except Err (ℤ × ℝ) :=
  let num_grid_points : ℤ := ⌈t_max / dt⌉ + 1
  if num_grid_points ≤ (N : ℤ) then
    Except.ok (num_grid_points, ((num_grid_points : ℝ) - 1) * dt)
  else Except.error Err.configurationError

/-- The numeric profile of `StocProc_FFT`:
`yl = sqrt(spectral_density(dx*np.arange(N) + a + dx/2) * dx / np.pi)`. -/
noncomputable def StocProcFFT_yl (J : ℝ → ℝ) (a dx : ℝ) (N : ℕ) : List ℂ :=
  (List.range N).map fun k : ℕ =>
    ((Real.sqrt (J (dx * (k : ℝ) + a + dx / 2) * dx / Real.pi) : ℝ) : ℂ)

/-- `omega_min_correction = np.exp(-1j*(a+dx/2)*self.t)`. -/
noncomputable def StocProcFFT_omc (a dx : ℝ) (t : List ℝ) : List ℂ :=
  t.map fun ti : ℝ => Complex.exp (-Complex.I * (((a + dx / 2 : ℝ)) : ℂ) * (ti : ℂ))

/-- `StocProc_FFT.calc_z`:
`z_fft = np.fft.fft(self.yl * y)`, then
`z = z_fft[0:self.num_grid_points] * self.omega_min_correction`. -/
noncomputable def StocProcFFT_calc_z (yl omc : List ℂ) (num_grid_points : ℕ)
    (y : List ℂ) : Option (List ℂ) := do
  let p ← npMul yl y
  let zfft := npfft p
  npMul (zfft.take num_grid_points) omc

/-- `StocProc_FFT.get_num_y`: `len(self.yl)`. -/
def StocProcFFT_get_num_y (yl : List ℂ) : ℕ := yl.length

/-! ### Tanh-Sinh variant (`StocProc_TanhSinh`) -/

/-- Quadrature-weight array of `StocProc_TanhSinh.__init__`:
`wk = [wk(h, ki) for ki in range(1, k+1)]` then
`wk = np.hstack((wk[::-1], [wk(h, 0)], wk))`. -/
noncomputable def TS_wk_arr (wkf : ℝ → ℕ → ℝ) (h : ℝ) (k : ℕ) : List ℝ :=
  ((List.range' 1 k).map (wkf h)).reverse ++ ([wkf h 0] ++ (List.range' 1 k).map (wkf h))

/-- Frequency-node array of `StocProc_TanhSinh.__init__`:
`yk = [yk(h, ki) for ki in range(1, k+1)]`, `tmp1 = wmax/2`,
`omega_k = np.hstack((yk[::-1] * tmp1, tmp1, (2 - yk) * tmp1))`. -/
noncomputable def TS_omega_k (ykf : ℝ → ℕ → ℝ) (h : ℝ) (k : ℕ) (wmax : ℝ) :
    List ℝ :=
  (((List.range' 1 k).map (ykf h)).reverse.map fun v : ℝ => v * (wmax / 2)) ++
    ([wmax / 2] ++ ((List.range' 1 k).map (ykf h)).map fun v : ℝ => (2 - v) * (wmax / 2))

/-- Amplitude array of `StocProc_TanhSinh.__init__`:
`fl = np.sqrt(tmp1 * wk * spectral_density(omega_k) / np.pi)` (elementwise
over the paired weight/node arrays, `tmp1 = wmax/2` a broadcast scalar). -/
noncomputable def TS_fl (J : ℝ → ℝ) (wkArr omegaArr : List ℝ) (wmax : ℝ) :
    List ℝ :=
  List.zipWith (fun w om => Real.sqrt (wmax / 2 * w * J om / Real.pi)) wkArr omegaArr

/-- `StocProc_TanhSinh.calc_z`: for every grid time `ti`,
`z[i] = np.sum(self.fl * y * np.exp(-1j * self.omega_k * ti))`. -/
noncomputable def TS_calc_z (fl omega : List ℝ) (t : List ℝ) (y : List ℂ) :
    Option (List ℂ) :=
  t.mapM fun ti : ℝ => do
    let p1 ← npMul (fl.map fun r : ℝ => (r : ℂ)) y
    let p2 ← npMul p1
      (omega.map fun w : ℝ => Complex.exp (-Complex.I * (w : ℂ) * (ti : ℂ)))
    pure p2.sum

/-- `StocProc_TanhSinh.get_num_y`: `len(self.fl)`. -/
def TS_get_num_y (fl : List ℝ) : ℕ := fl.length

/-! ### Concrete example states -/

/-- A freshly constructed generator state on the grid `[0, 1]` (exactly the
lifecycle fields `absInit` produces): `_z = None`, no interpolator. -/
noncomputable def freshSt : CoreState :=
  { t := [0, 1], t_max := 1, num_grid_points := 2, z := ZAttr.val none,
    interpolator := none, seed := none, proc_cnt := 0, scale := 1,
    sqrt_scale := Real.sqrt 1 }

/-- A generator state that already holds a realization: discrete sample `[1]`
and a live interpolator built from it. -/
noncomputable def readySt : CoreState :=
  { t := [0, 1], t_max := 1, num_grid_points := 2, z := ZAttr.val (some [1]),
    interpolator := some ⟨0, 1, [1]⟩, seed := none, proc_cnt := 3, scale := 1,
    sqrt_scale := Real.sqrt 1 }

/-! ### Helper lemmas -/

theorem getD_map_lt {α : Type _} {β : Type _} (f : α → β) (xs : List α) (i : ℕ)
    (d : α) (d' : β) (h : i < xs.length) :
    (xs.map f).getD i d' = f (xs.getD i d) := by
  rw [List.getD_eq_getElem _ _ (by simpa using h), List.getD_eq_getElem _ _ h,
    List.getElem_map]

theorem sum_map_range_eq_finsum {M : Type _} [AddCommMonoid M] (f : ℕ → M) (n : ℕ) :
    ((List.range n).map f).sum = ∑ i ∈ Finset.range n, f i := by
  induction n with
  | zero => simp
  | succ n ih => rw [List.sum_range_succ, Finset.sum_range_succ, ih]

theorem zipWith_eq_map_range {α β γ : Type _} (f : α → β → γ) (da : α) (db : β)
    (xs : List α) (ys : List β) (h : ys.length = xs.length) :
    List.zipWith f xs ys =
      (List.range xs.length).map fun i => f (xs.getD i da) (ys.getD i db) := by
  induction xs generalizing ys with
  | nil => simp
  | cons x xs ih =>
    cases ys with
    | nil => simp at h
    | cons y ys =>
      simp only [List.length_cons] at h
      rw [List.zipWith_cons_cons, List.length_cons, List.range_succ_eq_map,
        List.map_cons, List.map_map]
      exact congrArg₂ _ rfl (by
        rw [ih ys (by omega)]
        exact List.map_congr_left fun i _ => by simp [Function.comp])

/-! ### C5: eigen-expansion mapping -/

/-- C5: for the Eigen-expansion (KLE) generator, for every input vector `y`
whose length equals the first dimension of the stored matrix, the mapping
returns `z` of length `ng` with `z_k = Σ_i y_i · mat[i][k]` (contraction over
the random-index axis), and `get_num_y` equals that first dimension. -/
theorem stocProcKLE_mapping_spec (mat : List (List ℂ)) (ng : ℕ) (y : List ℂ)
    (hy : y.length = StocProcKLE_get_num_y mat) :
    ∃ z, StocProcKLE_calc_z mat ng y = some z ∧ z.length = ng ∧
      (∀ k, k < ng →
        z.getD k 0 = ∑ i ∈ Finset.range mat.length,
          y.getD i 0 * (mat.getD i []).getD k 0) ∧
      StocProcKLE_get_num_y mat = mat.length := by
  refine ⟨(List.range ng).map fun k =>
      ∑ i ∈ Finset.range mat.length, y.getD i 0 * (mat.getD i []).getD k 0,
    ?_, ?_, ?_, rfl⟩
  · rw [StocProcKLE_calc_z, if_pos (by simpa [StocProcKLE_get_num_y] using hy)]
  · simp
  · intro k hk
    have h1 : k < (List.range ng).length := by simpa using hk
    have h2 : (List.range ng).getD k 0 = k := by
      rw [List.getD_eq_getElem _ _ h1, List.getElem_range]
    rw [getD_map_lt _ _ _ 0 _ h1, h2]

/-- Witness for C5 at the concrete matrix `[[1]]` and input `[2]`. -/
theorem stocProcKLE_mapping_spec_witness :
    ∃ z, StocProcKLE_calc_z [[(1 : ℂ)]] 1 [(2 : ℂ)] = some z ∧ z.length = 1 ∧
      (∀ k, k < 1 →
        z.getD k 0 = ∑ i ∈ Finset.range ([[(1 : ℂ)]] : List (List ℂ)).length,
          ([(2 : ℂ)] : List ℂ).getD i 0 *
            (([[(1 : ℂ)]] : List (List ℂ)).getD i []).getD k 0) ∧
      StocProcKLE_get_num_y [[(1 : ℂ)]] = ([[(1 : ℂ)]] : List (List ℂ)).length :=
  stocProcKLE_mapping_spec [[(1 : ℂ)]] 1 [(2 : ℂ)] rfl

/-! ### C7: DFT construction grid snap -/

/-- C7: during Direct-DFT construction, `num_grid_points = ⌈t_max/dt⌉ + 1`;
when it does not exceed `N` the reported `t_max` is snapped to
`(num_grid_points - 1)·dt = ⌈t_max/dt⌉·dt`, and when it exceeds `N` the
construction fails (the event the spec calls `ConfigurationError`). -/
theorem stocProcFFT_snap_spec (t_max dt : ℝ) (N : ℕ) :
    (⌈t_max / dt⌉ + 1 ≤ (N : ℤ) →
      fft_snap t_max dt N =
        Except.ok (⌈t_max / dt⌉ + 1, ((⌈t_max / dt⌉ : ℤ) : ℝ) * dt)) ∧
    ((N : ℤ) < ⌈t_max / dt⌉ + 1 →
      fft_snap t_max dt N = Except.error Err.configurationError) := by
  constructor
  · intro h
    rw [fft_snap]
    simp only [if_pos h]
    congr 1
    push_cast
    ring_nf
  · intro h
    rw [fft_snap]
    simp only [if_neg (show ¬(⌈t_max / dt⌉ + 1 ≤ (N : ℤ)) by omega)]

/-- Witness for C7: `t_max = 1`, `dt = 1`; with `N = 3` the construction
succeeds and snaps, with `N = 0` it fails. -/
theorem stocProcFFT_snap_spec_witness :
    fft_snap 1 1 3 = Except.ok (⌈(1 : ℝ) / 1⌉ + 1, ((⌈(1 : ℝ) / 1⌉ : ℤ) : ℝ) * 1) ∧
    fft_snap 1 1 0 = Except.error Err.configurationError :=
  ⟨(stocProcFFT_snap_spec 1 1 3).1 (by simp),
   (stocProcFFT_snap_spec 1 1 0).2 (by simp)⟩

theorem getD_zipWith_lt {α β γ : Type _} (f : α → β → γ) (xs : List α)
    (ys : List β) (j : ℕ) (da : α) (db : β) (dc : γ)
    (h1 : j < xs.length) (h2 : j < ys.length) :
    (List.zipWith f xs ys).getD j dc = f (xs.getD j da) (ys.getD j db) := by
  rw [List.getD_eq_getElem _ _ (by simp [List.length_zipWith]; omega),
    List.getD_eq_getElem _ _ h1, List.getD_eq_getElem _ _ h2,
    List.getElem_zipWith]

theorem getD_take_lt {α : Type _} (xs : List α) (n j : ℕ) (d : α)
    (h1 : j < n) (h2 : j < xs.length) :
    (xs.take n).getD j d = xs.getD j d := by
  rw [List.getD_eq_getElem _ _ (by simp [List.length_take]; omega),
    List.getD_eq_getElem _ _ h2, List.getElem_take]

theorem mapM_eq_map_of_forall {α β : Type _} (F : α → Option β) (G : α → β)
    (l : List α) (h : ∀ a ∈ l, F a = some (G a)) :
    l.mapM F = some (l.map G) := by
  induction l with
  | nil => rfl
  | cons x xs ih =>
    rw [List.mapM_cons, h x (by simp), ih fun a ha => h a (by simp [ha])]
    rfl

theorem sum_zipWith_mul3 (xs ys zs : List ℂ)
    (h1 : ys.length = xs.length) (h2 : zs.length = xs.length) :
    (List.zipWith (· * ·) (List.zipWith (· * ·) xs ys) zs).sum =
      ∑ j ∈ Finset.range xs.length, xs.getD j 0 * ys.getD j 0 * zs.getD j 0 := by
  have hlen : zs.length = (List.zipWith (· * ·) xs ys).length := by
    simp [List.length_zipWith, h1, h2]
  rw [zipWith_eq_map_range (· * ·) 0 0 _ _ hlen, sum_map_range_eq_finsum]
  have hxy : (List.zipWith (· * ·) xs ys).length = xs.length := by
    simp [List.length_zipWith, h1]
  rw [hxy]
  refine Finset.sum_congr rfl fun j hj => ?_
  have hjx : j < xs.length := Finset.mem_range.mp hj
  rw [getD_zipWith_lt _ _ _ _ 0 0 0 hjx (by omega)]

theorem linspace_length (a b : ℝ) (n : ℕ) : (linspace a b n).length = n := by
  rw [linspace, List.length_map, List.length_range]

theorem except_bind_ok {ε α β : Type _} (a : α) (f : α → Except ε β) :
    (Except.ok a >>= f : Except ε β) = f a := rfl

/-! ### C3: readiness behavior of a fresh generator -/

/-- C3 counterexample: on a freshly constructed generator, `get_z`
(`GetCurrentSample`) does not fail — it returns the python `None` value —
refuting the claim that it fails with `NotReadyError`. -/
theorem get_z_fresh_counterexample :
    get_z freshSt = Except.ok none ∧
    get_z freshSt ≠ Except.error Err.notReady := by
  refine ⟨rfl, ?_⟩
  simp [get_z, freshSt]

/-- C3 amended: on a generator with no realization yet (`_z = None`),
`Evaluate` (`__call__`, with or without an argument) fails with the
not-ready error, while `GetCurrentSample` (`get_z`) returns the absent
value `None` without raising. -/
theorem fresh_generator_readiness (iE : Interp → ℝ → ℂ) (s : CoreState)
    (t : Option ℝ) (h : s.z = ZAttr.val none) :
    absCall iE s t = Except.error Err.notReady ∧
    get_z s = Except.ok none := by
  constructor
  · rw [absCall, h]
  · rw [get_z, h]

/-- Witness for C3 at the concrete fresh state. -/
theorem fresh_generator_readiness_witness :
    absCall (fun _ _ => 0) freshSt none = Except.error Err.notReady ∧
    get_z freshSt = Except.ok none :=
  fresh_generator_readiness (fun _ _ => 0) freshSt none rfl

/-! ### C9: construction failure conditions of the abstract core -/

/-- C9 counterexample: constructing the abstract core with the explicit
one-point time axis `[0]` (a grid with fewer than 2 points) succeeds,
refuting the claim that such a construction fails. -/
theorem absInit_one_point_counterexample :
    absInit none none none (some [(0 : ℝ)]) 1 ⟨none, 0⟩ =
      Except.ok ({ t := [(0 : ℝ)], t_max := 0, num_grid_points := 1,
                   z := ZAttr.val none, interpolator := none, seed := none,
                   proc_cnt := 0, scale := 1, sqrt_scale := Real.sqrt 1 },
                 (⟨none, 0⟩ : RngSt)) ∧ (1 : ℕ) < 2 := by
  exact ⟨rfl, by decide⟩

/-- C9 amended: construction of the abstract core fails when neither a
`(t_max, num_grid_points)` pair nor an explicit time sequence is supplied
(or `t_max` is supplied without a point count), and when the resulting time
grid is empty; a grid with exactly one point is accepted — there is no
fewer-than-2-points check. -/
theorem absInit_failure_spec (tm : ℝ) (n nn : ℕ) (sd : Option ℤ) (ta : List ℝ)
    (sc : ℝ) (r : RngSt) :
    (absInit none (some nn) sd none sc r = Except.error Err.typeError) ∧
    (absInit none none sd none sc r = Except.error Err.typeError) ∧
    (absInit (some tm) none sd (some ta) sc r = Except.error Err.typeError) ∧
    (absInit none (some nn) sd (some []) sc r = Except.error Err.indexError) ∧
    (absInit (some tm) (some 0) sd ta sc r = Except.error Err.indexError) ∧
    (ta ≠ [] → ∃ st rng, absInit none nn sd (some ta) sc r = Except.ok (st, rng) ∧
      st.num_grid_points = ta.length) ∧
    (n ≠ 0 → ∃ st rng,
      absInit (some tm) (some n) sd ta sc r = Except.ok (st, rng) ∧
      st.num_grid_points = n) := by
  refine ⟨rfl, rfl, rfl, rfl, rfl, ?_, ?_⟩
  · intro hta
    cases hl : ta.getLast? with
    | none => exact absurd (List.getLast?_eq_none_iff.mp hl) hta
    | some v =>
      refine ⟨{ t := ta, t_max := v, num_grid_points := ta.length,
                z := ZAttr.val none, interpolator := none, seed := sd,
                proc_cnt := 0, scale := sc, sqrt_scale := Real.sqrt sc },
              (match sd with | some s => RngSt.reseed r s | none => r),
              ?_, rfl⟩
      simp only [absInit, except_bind_ok, hl]
  · intro hn
    cases hl : (linspace 0 tm n).getLast? with
    | none =>
      have := List.getLast?_eq_none_iff.mp hl
      have hlen : (linspace 0 tm n).length = n := linspace_length 0 tm n
      rw [this] at hlen
      exact absurd hlen.symm hn
    | some v =>
      refine ⟨{ t := linspace 0 tm n, t_max := v,
                num_grid_points := (linspace 0 tm n).length,
                z := ZAttr.val none, interpolator := none, seed := sd,
                proc_cnt := 0, scale := sc, sqrt_scale := Real.sqrt sc },
              (match sd with | some s => RngSt.reseed r s | none => r),
              ?_, linspace_length 0 tm n⟩
      simp only [absInit, except_bind_ok, hl]

/-! ### C4: behavior of `new_process` when the mapping raises -/

/-- C4 counterexample: starting from a state holding a valid sample `[1]` and
a live interpolator, a `new_process` call whose mapping raises (here: the KLE
contraction fed a wrong-length vector) leaves the generator with the
interpolator cleared and the sample attribute deleted — the prior observable
state is not preserved, and a subsequent read fails instead of seeing the
previous sample. -/
theorem new_process_failure_counterexample :
    (new_process (StocProcKLE_calc_z [[1]] 1) 0 (fun _ _ => []) readySt
        ⟨none, 0⟩ (some [1, 2]) none).2 = some Err.valueError ∧
    (new_process (StocProcKLE_calc_z [[1]] 1) 0 (fun _ _ => []) readySt
        ⟨none, 0⟩ (some [1, 2]) none).1.1.interpolator = none ∧
    readySt.interpolator = some ⟨0, 1, [1]⟩ ∧
    (new_process (StocProcKLE_calc_z [[1]] 1) 0 (fun _ _ => []) readySt
        ⟨none, 0⟩ (some [1, 2]) none).1.1.z = ZAttr.deleted ∧
    readySt.z = ZAttr.val (some [1]) ∧
    get_z (new_process (StocProcKLE_calc_z [[1]] 1) 0 (fun _ _ => []) readySt
        ⟨none, 0⟩ (some [1, 2]) none).1.1 ≠ get_z readySt := by
  simp [new_process, readySt, get_z, StocProcKLE_calc_z]

/-- C4 amended: `new_process` is not atomic with respect to errors — when the
mapping raises, the error propagates but the generator is left in a partial
state: the interpolator is already invalidated, the previous sample attribute
is deleted (so `get_z` raises an attribute error), and the realization
counter is already incremented. -/
theorem new_process_failure_partial (mapping : List ℂ → Option (List ℂ))
    (num_y : ℕ) (normals : RngSt → ℕ → List ℝ) (s : CoreState) (rng : RngSt)
    (yv : List ℂ) (seed : Option ℤ) (hfail : mapping yv = none) :
    (new_process mapping num_y normals s rng (some yv) seed).2 =
      some Err.valueError ∧
    (new_process mapping num_y normals s rng (some yv) seed).1.1.interpolator
      = none ∧
    (new_process mapping num_y normals s rng (some yv) seed).1.1.z
      = ZAttr.deleted ∧
    (new_process mapping num_y normals s rng (some yv) seed).1.1.proc_cnt
      = s.proc_cnt + 1 ∧
    get_z (new_process mapping num_y normals s rng (some yv) seed).1.1
      = Except.error Err.attributeError := by
  simp [new_process, hfail, get_z]

/-- Witness for C4 at a concrete failing call. -/
theorem new_process_failure_partial_witness :
    (new_process (StocProcKLE_calc_z [[1]] 1) 0 (fun _ _ => []) freshSt
        ⟨none, 0⟩ (some [1, 2]) none).2 = some Err.valueError ∧
    (new_process (StocProcKLE_calc_z [[1]] 1) 0 (fun _ _ => []) freshSt
        ⟨none, 0⟩ (some [1, 2]) none).1.1.interpolator = none ∧
    (new_process (StocProcKLE_calc_z [[1]] 1) 0 (fun _ _ => []) freshSt
        ⟨none, 0⟩ (some [1, 2]) none).1.1.z = ZAttr.deleted ∧
    (new_process (StocProcKLE_calc_z [[1]] 1) 0 (fun _ _ => []) freshSt
        ⟨none, 0⟩ (some [1, 2]) none).1.1.proc_cnt = freshSt.proc_cnt + 1 ∧
    get_z (new_process (StocProcKLE_calc_z [[1]] 1) 0 (fun _ _ => []) freshSt
        ⟨none, 0⟩ (some [1, 2]) none).1.1 = Except.error Err.attributeError :=
  new_process_failure_partial (StocProcKLE_calc_z [[1]] 1) 0 (fun _ _ => [])
    freshSt ⟨none, 0⟩ [1, 2] none (by simp [StocProcKLE_calc_z])

/-! ### C8: scale law -/

/-- C8: the core computes `z = √scale · Mapping(y)`; two generators identical
except that one was rescaled by `SetScale(c)` produce, from the same input
`y`, samples related pointwise by `z_scaled = √c · z_default`; and `SetScale`
does not touch the currently stored sample or interpolator. -/
theorem scale_law (mapping : List ℂ → Option (List ℂ)) (num_y : ℕ)
    (normals : RngSt → ℕ → List ℝ) (s : CoreState) (rng : RngSt)
    (yv zv : List ℂ) (seed : Option ℤ) (c : ℝ)
    (hscale : s.scale = 1) (hsqrt : s.sqrt_scale = Real.sqrt s.scale)
    (hmap : mapping yv = some zv) :
    ((set_scale s c).z = s.z ∧ (set_scale s c).interpolator = s.interpolator) ∧
    (new_process mapping num_y normals (set_scale s c) rng (some yv) seed).1.1.z
      = ZAttr.val (some (zv.map fun x : ℂ => ((Real.sqrt c : ℝ) : ℂ) * x)) ∧
    (new_process mapping num_y normals s rng (some yv) seed).1.1.z
      = ZAttr.val (some zv) ∧
    (∀ k : ℕ, (zv.map fun x : ℂ => ((Real.sqrt c : ℝ) : ℂ) * x).getD k 0
      = ((Real.sqrt c : ℝ) : ℂ) * zv.getD k 0) := by
  refine ⟨⟨rfl, rfl⟩, ?_, ?_, ?_⟩
  · simp [new_process, hmap, set_scale]
  · have h1 : s.sqrt_scale = 1 := by rw [hsqrt, hscale, Real.sqrt_one]
    simp [new_process, hmap, h1]
  · intro k
    by_cases hk : k < zv.length
    · rw [getD_map_lt _ _ _ 0 _ hk]
    · rw [List.getD_eq_default _ _ (by simp; omega),
        List.getD_eq_default _ _ (by omega), mul_zero]

/-- Witness for C8 at a concrete generator (`mapping` the KLE contraction on
the matrix `[[1]]`, `y = [2]`, rescale factor `c = 4`). -/
theorem scale_law_witness :
    ((set_scale freshSt 4).z = freshSt.z ∧
      (set_scale freshSt 4).interpolator = freshSt.interpolator) ∧
    (new_process (StocProcKLE_calc_z [[1]] 1) 0 (fun _ _ => [])
        (set_scale freshSt 4) ⟨none, 0⟩ (some [2]) none).1.1.z
      = ZAttr.val (some (([(2 : ℂ)].map fun x : ℂ =>
          ((Real.sqrt 4 : ℝ) : ℂ) * x))) ∧
    (new_process (StocProcKLE_calc_z [[1]] 1) 0 (fun _ _ => []) freshSt
        ⟨none, 0⟩ (some [2]) none).1.1.z = ZAttr.val (some [(2 : ℂ)]) ∧
    (∀ k : ℕ, (([(2 : ℂ)].map fun x : ℂ =>
        ((Real.sqrt 4 : ℝ) : ℂ) * x)).getD k 0
      = ((Real.sqrt 4 : ℝ) : ℂ) * ([(2 : ℂ)].getD k 0)) :=
  scale_law (StocProcKLE_calc_z [[1]] 1) 0 (fun _ _ => []) freshSt ⟨none, 0⟩
    [2] [2] none 4 rfl rfl (by
      simp [StocProcKLE_calc_z, show List.range 1 = [0] from rfl,
        Finset.sum_range_one])

/-! ### C10: global RNG reseeding even when `y` is supplied -/

/-- C10: when `new_process` is called with both a seed and an explicit input
vector `y`, the process-wide random source is still reseeded (and nothing is
drawn from it in that call), so the global RNG state is mutated even though
the supplied `y` is used. -/
theorem new_process_reseeds_rng (mapping : List ℂ → Option (List ℂ))
    (num_y : ℕ) (normals : RngSt → ℕ → List ℝ) (s : CoreState) (rng : RngSt)
    (yv : List ℂ) (sd : ℤ) (hne : rng.lastSeed ≠ some sd) :
    (new_process mapping num_y normals s rng (some yv) (some sd)).1.2
      = RngSt.reseed rng sd ∧
    (new_process mapping num_y normals s rng (some yv) (some sd)).1.2.draws
      = 0 ∧
    (new_process mapping num_y normals s rng (some yv) (some sd)).1.2 ≠ rng := by
  refine ⟨?_, ?_, ?_⟩ <;> cases hm : mapping yv <;>
    simp [new_process, hm, RngSt.reseed] <;>
    exact fun h => hne (by rw [← h])

/-- Witness for C10 at a concrete call (seed 42, previously unseeded RNG). -/
theorem new_process_reseeds_rng_witness :
    (new_process (StocProcKLE_calc_z [[1]] 1) 0 (fun _ _ => []) freshSt
        ⟨none, 5⟩ (some [2]) (some 42)).1.2 = RngSt.reseed ⟨none, 5⟩ 42 ∧
    (new_process (StocProcKLE_calc_z [[1]] 1) 0 (fun _ _ => []) freshSt
        ⟨none, 5⟩ (some [2]) (some 42)).1.2.draws = 0 ∧
    (new_process (StocProcKLE_calc_z [[1]] 1) 0 (fun _ _ => []) freshSt
        ⟨none, 5⟩ (some [2]) (some 42)).1.2 ≠ (⟨none, 5⟩ : RngSt) :=
  new_process_reseeds_rng (StocProcKLE_calc_z [[1]] 1) 0 (fun _ _ => [])
    freshSt ⟨none, 5⟩ [2] 42 (by simp)

theorem option_bind_some {α β : Type _} (a : α) (f : α → Option β) :
    (some a >>= f : Option β) = f a := rfl

/-! ### C1: Direct-DFT mapping -/

/-- C1: for the Direct-DFT generator, the profile satisfies
`yl_k = √(J(a + dx/2 + k·dx)·dx/π)`, the mapping of an input of length `N`
returns `FFT(yl ⊙ y)[0:num_grid_points] ⊙ exp(-i·(a+dx/2)·t)`, and
`get_num_y` returns the full transform length `N`, not `num_grid_points`. -/
theorem stocProcFFT_mapping_spec (J : ℝ → ℝ) (a dx : ℝ) (N : ℕ) (t : List ℝ)
    (y : List ℂ) (hy : y.length = N) (ht : t.length ≤ N) :
    (∀ k, k < N → (StocProcFFT_yl J a dx N).getD k 0
      = ((Real.sqrt (J (a + dx / 2 + (k : ℝ) * dx) * dx / Real.pi) : ℝ) : ℂ)) ∧
    StocProcFFT_get_num_y (StocProcFFT_yl J a dx N) = N ∧
    (t.length < N → StocProcFFT_get_num_y (StocProcFFT_yl J a dx N) ≠ t.length) ∧
    StocProcFFT_calc_z (StocProcFFT_yl J a dx N) (StocProcFFT_omc a dx t)
        t.length y
      = some ((List.range t.length).map fun l : ℕ =>
          (npfft (List.zipWith (· * ·) (StocProcFFT_yl J a dx N) y)).getD l 0 *
            Complex.exp (-Complex.I * (((a + dx / 2 : ℝ)) : ℂ) *
              ((t.getD l 0 : ℝ) : ℂ))) := by
  have hyl_len : (StocProcFFT_yl J a dx N).length = N := by
    simp [StocProcFFT_yl]
  refine ⟨?_, ?_, ?_, ?_⟩
  · intro k hk
    have h1 : k < (List.range N).length := by simpa using hk
    have h2 : (List.range N).getD k 0 = k := by
      rw [List.getD_eq_getElem _ _ h1, List.getElem_range]
    have harg : dx * (k : ℝ) + a + dx / 2 = a + dx / 2 + (k : ℝ) * dx := by ring
    rw [StocProcFFT_yl, getD_map_lt _ _ _ 0 _ h1, h2, harg]
  · simp [StocProcFFT_get_num_y, StocProcFFT_yl]
  · intro hlt
    rw [StocProcFFT_get_num_y, hyl_len]
    omega
  · have hmul1 : npMul (StocProcFFT_yl J a dx N) y
        = some (List.zipWith (· * ·) (StocProcFFT_yl J a dx N) y) := by
      rw [npMul, if_pos (by rw [hyl_len, hy])]
    have hplen : (List.zipWith (· * ·) (StocProcFFT_yl J a dx N) y).length = N := by
      simp [List.length_zipWith, hyl_len, hy]
    have hfftlen :
        (npfft (List.zipWith (· * ·) (StocProcFFT_yl J a dx N) y)).length = N := by
      simp [npfft, hplen]
    have htake :
        ((npfft (List.zipWith (· * ·) (StocProcFFT_yl J a dx N) y)).take
          t.length).length = t.length := by
      simp [List.length_take]
      omega
    have homc : (StocProcFFT_omc a dx t).length = t.length := by
      simp [StocProcFFT_omc]
    rw [StocProcFFT_calc_z, hmul1, option_bind_some,
      npMul, if_pos (htake.trans homc.symm),
      zipWith_eq_map_range (· * ·) 0 0 _ _ (homc.trans htake.symm), htake]
    refine congrArg some (List.map_congr_left fun l hl => ?_)
    have hl' : l < t.length := List.mem_range.mp hl
    rw [getD_take_lt _ _ _ _ hl' (by omega),
      StocProcFFT_omc, getD_map_lt _ _ _ 0 _ hl']

/-- Witness for C1 at `J ≡ 1`, `a = 0`, `dx = 1`, `N = 2`, `t = [0, 1]`,
`y = [1, 1]`. -/
theorem stocProcFFT_mapping_spec_witness :
    (∀ k, k < 2 → (StocProcFFT_yl (fun _ => 1) 0 1 2).getD k 0
      = ((Real.sqrt ((fun _ : ℝ => (1 : ℝ)) (0 + 1 / 2 + (k : ℝ) * 1) * 1 /
          Real.pi) : ℝ) : ℂ)) ∧
    StocProcFFT_get_num_y (StocProcFFT_yl (fun _ => 1) 0 1 2) = 2 ∧
    (([(0 : ℝ), 1] : List ℝ).length < 2 →
      StocProcFFT_get_num_y (StocProcFFT_yl (fun _ => 1) 0 1 2)
        ≠ ([(0 : ℝ), 1] : List ℝ).length) ∧
    StocProcFFT_calc_z (StocProcFFT_yl (fun _ => 1) 0 1 2)
        (StocProcFFT_omc 0 1 [0, 1]) ([(0 : ℝ), 1] : List ℝ).length [1, 1]
      = some ((List.range ([(0 : ℝ), 1] : List ℝ).length).map fun l : ℕ =>
          (npfft (List.zipWith (· * ·) (StocProcFFT_yl (fun _ => 1) 0 1 2)
            [1, 1])).getD l 0 *
            Complex.exp (-Complex.I * (((0 + 1 / 2 : ℝ)) : ℂ) *
              ((([(0 : ℝ), 1] : List ℝ).getD l 0 : ℝ) : ℂ))) :=
  stocProcFFT_mapping_spec (fun _ => 1) 0 1 2 [0, 1] [1, 1] rfl (by decide)

/-! ### C2: dimension law for supplied input vectors -/

theorem TS_broadcast_one (fl omega : List ℝ) (t : List ℝ) (y : List ℂ)
    (hy1 : y.length = 1) (hfl1 : fl.length ≠ 1) (hflom : omega.length = fl.length) :
    TS_calc_z fl omega t y = some (t.map fun ti : ℝ =>
      (List.zipWith (· * ·)
        ((fl.map fun r : ℝ => (r : ℂ)).map (· * y.getD 0 0))
        (omega.map fun w : ℝ =>
          Complex.exp (-Complex.I * (w : ℂ) * (ti : ℂ)))).sum) := by
  rw [TS_calc_z]
  refine mapM_eq_map_of_forall _ _ t fun ti _ => ?_
  have h1 : npMul (fl.map fun r : ℝ => (r : ℂ)) y
      = some ((fl.map fun r : ℝ => (r : ℂ)).map (· * y.getD 0 0)) := by
    rw [npMul, if_neg (by simp [hy1]; omega), if_pos hy1]
  have h2 : npMul ((fl.map fun r : ℝ => (r : ℂ)).map (· * y.getD 0 0))
      (omega.map fun w : ℝ => Complex.exp (-Complex.I * (w : ℂ) * (ti : ℂ)))
      = some (List.zipWith (· * ·)
          ((fl.map fun r : ℝ => (r : ℂ)).map (· * y.getD 0 0))
          (omega.map fun w : ℝ =>
            Complex.exp (-Complex.I * (w : ℂ) * (ti : ℂ)))) := by
    rw [npMul, if_pos (by simp [hflom])]
  rw [h1, option_bind_some, h2, option_bind_some]
  rfl

/-- C2 counterexample: supplying `y = [1]` of length 1 — shorter than the
required input count — does not fail on either elementwise-product variant:
for the Direct-DFT generator with `N = 4` required inputs the broadcast
mapping succeeds and `new_process` completes without any error, and for the
Tanh-Sinh generator with `2k+1 = 3` required inputs the dense-sum mapping
likewise succeeds and `new_process` completes without any error. -/
theorem broadcast_length_one_counterexample :
    ([(1 : ℂ)].length ≠
      StocProcFFT_get_num_y (StocProcFFT_yl (fun _ => 1) 0 1 4)) ∧
    (StocProcFFT_calc_z (StocProcFFT_yl (fun _ => 1) 0 1 4)
        (StocProcFFT_omc 0 1 [0, 1]) 2 [1]).isSome = true ∧
    (new_process (StocProcFFT_calc_z (StocProcFFT_yl (fun _ => 1) 0 1 4)
          (StocProcFFT_omc 0 1 [0, 1]) 2) 0 (fun _ _ => []) freshSt ⟨none, 0⟩
        (some [1]) none).2 = none ∧
    ([(1 : ℂ)].length ≠
      TS_get_num_y (TS_fl (fun _ => 1) (TS_wk_arr (fun _ _ => 1) 1 1)
        (TS_omega_k (fun _ _ => 1) 1 1 2) 2)) ∧
    (TS_calc_z (TS_fl (fun _ => 1) (TS_wk_arr (fun _ _ => 1) 1 1)
        (TS_omega_k (fun _ _ => 1) 1 1 2) 2)
        (TS_omega_k (fun _ _ => 1) 1 1 2) [0] [1]).isSome = true ∧
    (new_process (TS_calc_z (TS_fl (fun _ => 1) (TS_wk_arr (fun _ _ => 1) 1 1)
          (TS_omega_k (fun _ _ => 1) 1 1 2) 2)
          (TS_omega_k (fun _ _ => 1) 1 1 2) [0]) 0 (fun _ _ => []) freshSt
        ⟨none, 0⟩ (some [1]) none).2 = none := by
  have hyl : (StocProcFFT_yl (fun _ => (1 : ℝ)) 0 1 4).length = 4 := by
    simp [StocProcFFT_yl]
  have h1 : npMul (StocProcFFT_yl (fun _ => 1) 0 1 4) [1]
      = some ((StocProcFFT_yl (fun _ => 1) 0 1 4).map
          (· * ([(1 : ℂ)].getD 0 0))) := by
    rw [npMul, if_neg (by rw [hyl]; decide), if_pos (by decide)]
  have h2 : ∀ p : List ℂ, p.length = 4 →
      npMul ((npfft p).take 2) (StocProcFFT_omc 0 1 [0, 1])
        = some (List.zipWith (· * ·) ((npfft p).take 2)
            (StocProcFFT_omc 0 1 [0, 1])) := by
    intro p hp
    rw [npMul, if_pos]
    simp [npfft, List.length_take, StocProcFFT_omc, hp]
  have h3 : StocProcFFT_calc_z (StocProcFFT_yl (fun _ => 1) 0 1 4)
      (StocProcFFT_omc 0 1 [0, 1]) 2 [1]
      = some (List.zipWith (· * ·)
          ((npfft ((StocProcFFT_yl (fun _ => 1) 0 1 4).map
            (· * ([(1 : ℂ)].getD 0 0)))).take 2)
          (StocProcFFT_omc 0 1 [0, 1])) := by
    rw [StocProcFFT_calc_z, h1, option_bind_some, h2 _ (by simp [hyl])]
  have hfl3 : (TS_fl (fun _ => 1) (TS_wk_arr (fun _ _ => 1) 1 1)
      (TS_omega_k (fun _ _ => 1) 1 1 2) 2).length = 3 := by
    simp [TS_fl, TS_wk_arr, TS_omega_k, List.length_zipWith]
  have hom3 : (TS_omega_k (fun _ _ => 1) 1 1 2).length = 3 := by
    simp [TS_omega_k]
  have hTSb : TS_calc_z (TS_fl (fun _ => 1) (TS_wk_arr (fun _ _ => 1) 1 1)
      (TS_omega_k (fun _ _ => 1) 1 1 2) 2)
      (TS_omega_k (fun _ _ => 1) 1 1 2) [0] [1]
      = some (([(0 : ℝ)] : List ℝ).map fun ti : ℝ =>
          (List.zipWith (· * ·)
            (((TS_fl (fun _ => 1) (TS_wk_arr (fun _ _ => 1) 1 1)
              (TS_omega_k (fun _ _ => 1) 1 1 2) 2).map
                fun r : ℝ => (r : ℂ)).map (· * ([(1 : ℂ)].getD 0 0)))
            ((TS_omega_k (fun _ _ => 1) 1 1 2).map fun w : ℝ =>
              Complex.exp (-Complex.I * (w : ℂ) * (ti : ℂ)))).sum) :=
    TS_broadcast_one _ _ [0] [1] rfl (by simp [hfl3])
      (hom3.trans hfl3.symm)
  refine ⟨by rw [StocProcFFT_get_num_y, hyl]; decide, by rw [h3]; rfl,
    by simp [new_process, h3], by rw [TS_get_num_y, hfl3]; decide,
    by rw [hTSb]; rfl, by simp [new_process, hTSb]⟩

/-- C2 amended: no generator performs a dedicated input-length check.  The
KLE contraction rejects every mismatched length (numpy shape error), but the
elementwise-product variants (Direct-DFT and Tanh-Sinh) only fail when the
shapes are not broadcast-compatible: a mismatched `y` of length 1 is silently
broadcast (see the counterexample), so the failure, when it occurs, is
numpy's broadcasting `ValueError`, which `new_process` propagates. -/
theorem mismatched_y_behavior (mat : List (List ℂ)) (ng : ℕ)
    (yl omc : List ℂ) (ngp : ℕ) (fl omega2 : List ℝ) (t2 : List ℝ)
    (y : List ℂ) (mapping : List ℂ → Option (List ℂ)) (num_y : ℕ)
    (normals : RngSt → ℕ → List ℝ) (s : CoreState) (rng : RngSt)
    (seed : Option ℤ)
    (hKLE : y.length ≠ StocProcKLE_get_num_y mat)
    (hFFT2 : 2 ≤ yl.length) (hFFTne : y.length ≠ StocProcFFT_get_num_y yl)
    (hone : y.length ≠ 1)
    (hTS2 : 2 ≤ fl.length) (hTSne : y.length ≠ TS_get_num_y fl)
    (ht2 : t2 ≠ [])
    (hprop : mapping y = none) :
    StocProcKLE_calc_z mat ng y = none ∧
    StocProcFFT_calc_z yl omc ngp y = none ∧
    TS_calc_z fl omega2 t2 y = none ∧
    (new_process mapping num_y normals s rng (some y) seed).2
      = some Err.valueError := by
  refine ⟨?_, ?_, ?_, ?_⟩
  · rw [StocProcKLE_calc_z, if_neg (by simpa [StocProcKLE_get_num_y] using hKLE)]
  · have hmul : npMul yl y = none := by
      rw [npMul, if_neg (fun h => hFFTne (by simp [StocProcFFT_get_num_y, h])),
        if_neg (by simpa using hone), if_neg (by omega)]
    rw [StocProcFFT_calc_z, hmul]
    rfl
  · cases t2 with
    | nil => exact absurd rfl ht2
    | cons ti tr =>
      have hmulTS : npMul (fl.map fun r : ℝ => (r : ℂ)) y = none := by
        rw [npMul,
          if_neg (fun hh => hTSne (by simpa [TS_get_num_y] using hh.symm)),
          if_neg (by simpa using hone), if_neg (by simp; omega)]
      rw [TS_calc_z, List.mapM_cons]
      simp only [hmulTS]
      rfl
  · simp [new_process, hprop]

/-- Witness for C2 at `y = [1, 1, 1]` against the KLE matrix `[[1]]`, an FFT
profile of length 4, and a Tanh-Sinh profile of length `2·2+1 = 5`. -/
theorem mismatched_y_behavior_witness :
    StocProcKLE_calc_z [[1]] 1 [1, 1, 1] = none ∧
    StocProcFFT_calc_z (StocProcFFT_yl (fun _ => 1) 0 1 4)
      (StocProcFFT_omc 0 1 [0, 1]) 2 [1, 1, 1] = none ∧
    TS_calc_z (TS_fl (fun _ => 1) (TS_wk_arr (fun _ _ => 1) 1 2)
        (TS_omega_k (fun _ _ => 1) 1 2 2) 2)
      (TS_omega_k (fun _ _ => 1) 1 2 2) [0] [1, 1, 1] = none ∧
    (new_process (StocProcKLE_calc_z [[1]] 1) 0 (fun _ _ => []) freshSt
        ⟨none, 0⟩ (some [1, 1, 1]) none).2 = some Err.valueError :=
  mismatched_y_behavior [[1]] 1 (StocProcFFT_yl (fun _ => 1) 0 1 4)
    (StocProcFFT_omc 0 1 [0, 1]) 2
    (TS_fl (fun _ => 1) (TS_wk_arr (fun _ _ => 1) 1 2)
      (TS_omega_k (fun _ _ => 1) 1 2 2) 2)
    (TS_omega_k (fun _ _ => 1) 1 2 2) [0] [1, 1, 1]
    (StocProcKLE_calc_z [[1]] 1) 0 (fun _ _ => []) freshSt ⟨none, 0⟩ none
    (by decide) (by simp [StocProcFFT_yl])
    (by simp [StocProcFFT_get_num_y, StocProcFFT_yl]) (by decide)
    (by simp [TS_fl, TS_wk_arr, TS_omega_k, List.length_zipWith])
    (by simp [TS_get_num_y, TS_fl, TS_wk_arr, TS_omega_k, List.length_zipWith])
    (by simp) (by simp [StocProcKLE_calc_z])

/-! ### C6: Tanh-Sinh mapping -/

/-- C6: for the Tanh-Sinh generator with tuned parameters `(h, k)`, the
amplitude and frequency arrays both have length `2k+1` (the symmetric node
set around the central node), `get_num_y` returns `2k+1`, the amplitudes
satisfy `fl_j = √(w_max/2 · wk_j · J(ω_j)/π)`, and the mapping of an input
of length `2k+1` returns, for each grid time `t_l`, the dense sum
`z_l = Σ_j fl_j · y_j · exp(-i·ω_j·t_l)`. -/
theorem stocProcTS_mapping_spec (J : ℝ → ℝ) (wkf ykf : ℝ → ℕ → ℝ) (h : ℝ)
    (k : ℕ) (wmax : ℝ) (t : List ℝ) (y : List ℂ)
    (hy : y.length = 2 * k + 1) :
    (TS_wk_arr wkf h k).length = 2 * k + 1 ∧
    (TS_omega_k ykf h k wmax).length = 2 * k + 1 ∧
    (TS_fl J (TS_wk_arr wkf h k) (TS_omega_k ykf h k wmax) wmax).length
      = 2 * k + 1 ∧
    TS_get_num_y (TS_fl J (TS_wk_arr wkf h k) (TS_omega_k ykf h k wmax) wmax)
      = 2 * k + 1 ∧
    (∀ j, j < 2 * k + 1 →
      (TS_fl J (TS_wk_arr wkf h k) (TS_omega_k ykf h k wmax) wmax).getD j 0
        = Real.sqrt (wmax / 2 * (TS_wk_arr wkf h k).getD j 0 *
            J ((TS_omega_k ykf h k wmax).getD j 0) / Real.pi)) ∧
    TS_calc_z (TS_fl J (TS_wk_arr wkf h k) (TS_omega_k ykf h k wmax) wmax)
        (TS_omega_k ykf h k wmax) t y
      = some (t.map fun ti : ℝ =>
          ∑ j ∈ Finset.range (2 * k + 1),
            (((TS_fl J (TS_wk_arr wkf h k) (TS_omega_k ykf h k wmax)
                wmax).getD j 0 : ℝ) : ℂ) * y.getD j 0 *
              Complex.exp (-Complex.I *
                (((TS_omega_k ykf h k wmax).getD j 0 : ℝ) : ℂ) * (ti : ℂ))) := by
  have hwk : (TS_wk_arr wkf h k).length = 2 * k + 1 := by
    simp [TS_wk_arr]
    omega
  have hom : (TS_omega_k ykf h k wmax).length = 2 * k + 1 := by
    simp [TS_omega_k]
    omega
  have hfl : (TS_fl J (TS_wk_arr wkf h k) (TS_omega_k ykf h k wmax)
      wmax).length = 2 * k + 1 := by
    simp [TS_fl, List.length_zipWith, hwk, hom]
  refine ⟨hwk, hom, hfl, hfl, ?_, ?_⟩
  · intro j hj
    rw [TS_fl, getD_zipWith_lt _ _ _ _ 0 0 0 (by omega) (by omega)]
  · rw [TS_calc_z]
    refine mapM_eq_map_of_forall _ _ t fun ti _ => ?_
    have hm1 : npMul ((TS_fl J (TS_wk_arr wkf h k) (TS_omega_k ykf h k wmax)
          wmax).map fun r : ℝ => (r : ℂ)) y
        = some (List.zipWith (· * ·)
            ((TS_fl J (TS_wk_arr wkf h k) (TS_omega_k ykf h k wmax)
              wmax).map fun r : ℝ => (r : ℂ)) y) := by
      rw [npMul, if_pos (by simp [hfl, hy])]
    have hp1len : (List.zipWith (· * ·)
        ((TS_fl J (TS_wk_arr wkf h k) (TS_omega_k ykf h k wmax)
          wmax).map fun r : ℝ => (r : ℂ)) y).length = 2 * k + 1 := by
      simp [List.length_zipWith, hfl, hy]
    have hm2 : npMul (List.zipWith (· * ·)
          ((TS_fl J (TS_wk_arr wkf h k) (TS_omega_k ykf h k wmax)
            wmax).map fun r : ℝ => (r : ℂ)) y)
          ((TS_omega_k ykf h k wmax).map fun w : ℝ =>
            Complex.exp (-Complex.I * (w : ℂ) * (ti : ℂ)))
        = some (List.zipWith (· * ·)
            (List.zipWith (· * ·)
              ((TS_fl J (TS_wk_arr wkf h k) (TS_omega_k ykf h k wmax)
                wmax).map fun r : ℝ => (r : ℂ)) y)
            ((TS_omega_k ykf h k wmax).map fun w : ℝ =>
              Complex.exp (-Complex.I * (w : ℂ) * (ti : ℂ)))) := by
      rw [npMul, if_pos (by simp [hp1len, hom])]
    rw [hm1, option_bind_some, hm2, option_bind_some]
    refine congrArg some ?_
    rw [sum_zipWith_mul3 _ _ _ (by simp [hfl, hy]) (by simp [hfl, hom]),
      List.length_map, hfl]
    refine Finset.sum_congr rfl fun j hj => ?_
    have hj' : j < 2 * k + 1 := Finset.mem_range.mp hj
    rw [getD_map_lt _ _ _ 0 _ (by omega), getD_map_lt _ _ _ 0 _ (by omega)]

/-- Witness for C6 at `h = 1`, `k = 1`, `wmax = 2`, `J ≡ 1`, unit weight and
abscissa functions, `t = [0]`, `y = [1, 1, 1]`. -/
theorem stocProcTS_mapping_spec_witness :
    (TS_wk_arr (fun _ _ => 1) 1 1).length = 2 * 1 + 1 ∧
    (TS_omega_k (fun _ _ => 1) 1 1 2).length = 2 * 1 + 1 ∧
    (TS_fl (fun _ => 1) (TS_wk_arr (fun _ _ => 1) 1 1)
      (TS_omega_k (fun _ _ => 1) 1 1 2) 2).length = 2 * 1 + 1 ∧
    TS_get_num_y (TS_fl (fun _ => 1) (TS_wk_arr (fun _ _ => 1) 1 1)
      (TS_omega_k (fun _ _ => 1) 1 1 2) 2) = 2 * 1 + 1 ∧
    (∀ j, j < 2 * 1 + 1 →
      (TS_fl (fun _ => 1) (TS_wk_arr (fun _ _ => 1) 1 1)
        (TS_omega_k (fun _ _ => 1) 1 1 2) 2).getD j 0
        = Real.sqrt (2 / 2 * (TS_wk_arr (fun _ _ => 1) 1 1).getD j 0 *
            (fun _ : ℝ => (1 : ℝ)) ((TS_omega_k (fun _ _ => 1) 1 1 2).getD j 0) /
              Real.pi)) ∧
    TS_calc_z (TS_fl (fun _ => 1) (TS_wk_arr (fun _ _ => 1) 1 1)
        (TS_omega_k (fun _ _ => 1) 1 1 2) 2)
        (TS_omega_k (fun _ _ => 1) 1 1 2) [0] [1, 1, 1]
      = some (([(0 : ℝ)] : List ℝ).map fun ti : ℝ =>
          ∑ j ∈ Finset.range (2 * 1 + 1),
            (((TS_fl (fun _ => 1) (TS_wk_arr (fun _ _ => 1) 1 1)
                (TS_omega_k (fun _ _ => 1) 1 1 2) 2).getD j 0 : ℝ) : ℂ) *
              ([(1 : ℂ), 1, 1] : List ℂ).getD j 0 *
              Complex.exp (-Complex.I *
                (((TS_omega_k (fun _ _ => 1) 1 1 2).getD j 0 : ℝ) : ℂ) *
                (ti : ℂ))) :=
  stocProcTS_mapping_spec (fun _ => 1) (fun _ _ => 1) (fun _ _ => 1) 1 1 2
    [0] [1, 1, 1] rfl
